import Mathlib

/-!
Verification of the EFS volume driver (src/netshare/drivers/efs.go) of
docker-volume-netshare.

The driver code in efs.go is embedded shallowly: the driver state is a
structure, the reference-counted mount registry and the DNS cache are
functions from strings to optional values, external collaborators
(directory creation, physical mount and unmount, host-name resolution)
are supplied as an environment of oracles, and each driver operation
returns the new driver state, the response, and the list of physical
actions it attempted.
-/

namespace Netshare

/-- Modelled from the spec: a MountRecord of the Reference-Counted Mount
Registry (the mountManager, whose source file is not part of the snapshot)
holds the logical volume name and a reference count that is an integer
that is never negative. -/
structure MountRecord where
  volumeName : String
  refCount : Nat
deriving DecidableEq, Repr

/-- Modelled from the spec: the Registry is an in-memory table mapping a
mountpoint path to at most one MountRecord. -/
def MountManager : Type := String → Option MountRecord

/-- Modelled from the spec: NewVolumeManager yields an empty Registry. -/
def NewVolumeManager : MountManager := fun _ => none

/-- Modelled from the spec: HasMount is true iff a record exists for the
mountpoint, regardless of the refCount value. -/
def HasMount (m : MountManager) (p : String) : Bool := (m p).isSome

/-- Modelled from the spec: Count returns the current refCount, and 0 when
no record exists. -/
def Count (m : MountManager) (p : String) : Nat :=
  match m p with
  | some r => r.refCount
  | none => 0

/-- Modelled from the spec: Add creates a record with refCount 1 for the
mountpoint (overwriting the volume name and resetting the count when a
record already exists, the recommended implementation-defined choice). -/
def Add (m : MountManager) (p volumeName : String) : MountManager :=
  fun q => if q = p then some ⟨volumeName, 1⟩ else m q

/-- Modelled from the spec: Increment adds one to the refCount, a no-op
when the record is absent. -/
def Increment (m : MountManager) (p : String) : MountManager :=
  fun q => if q = p then
    match m p with
    | some r => some ⟨r.volumeName, r.refCount + 1⟩
    | none => none
  else m q

/-- Modelled from the spec: Decrement subtracts one from the refCount,
floored at 0, a no-op when the record is absent. -/
def Decrement (m : MountManager) (p : String) : MountManager :=
  fun q => if q = p then
    match m p with
    | some r => some ⟨r.volumeName, r.refCount - 1⟩
    | none => none
  else m q

/-- The response of a driver operation, after dkvolume.Response: a
mountpoint path or an error string, both empty by default (the Go zero
values). -/
structure Response where
  Mountpoint : String := ""
  Err : String := ""
deriving DecidableEq, Repr

/-- A physical action attempted by the driver: directory creation
(createDest), the physical mount call (mountVolume), the physical unmount
shell command, and recursive directory removal (os.RemoveAll). -/
inductive Action where
  | createDest (dest : String)
  | mountVol (source dest : String) (version : Nat)
  | unmountCmd (dest : String)
  | removeAll (dest : String)
deriving DecidableEq, Repr

/-- The external collaborators of the driver, as oracles: each returns
some error string on failure and none on success; dns returns the first
resolved address on success (net.LookupHost yields a non-empty address
list whenever it returns no error) and none on resolution failure. -/
structure Env where
  createDest : String → Option String
  mountVolume : String → String → Nat → Option String
  umount : String → Option String
  removeAll : String → Option String
  dns : String → Option String

/-- The driver state, after the efsDriver struct: configuration (root,
availzone, resolve, region), the registry and the DNS cache. The Go
mutex field serializes Mount and Unmount and is represented by the
sequential semantics of the embedding. -/
structure EfsDriver where
  root : String
  availzone : String
  resolve : Bool
  region : String
  mountm : MountManager
  dnscache : String → Option String

/-- AWS metadata, as supplied by the identity collaborator at
construction. -/
structure AWSMetaData where
  Region : String
  AvailZone : String

/-- NewEFSDriver, from efs.go lines 27 to 46, in the case where the
metadata fetch succeeds (on failure the process exits and no driver
exists). The struct literal leaves availzone at the zero value, and the
az argument is consulted only to detect emptiness: availzone is set to
the metadata default exactly when az is empty, and is left as the empty
string otherwise. -/
def NewEFSDriver (root az : String) (resolve : Bool) (md : AWSMetaData) : EfsDriver :=
  { root := root
    availzone := if az = "" then md.AvailZone else ""
    resolve := resolve
    region := md.Region
    mountm := NewVolumeManager
    dnscache := fun _ => none }

/-- The Go expression strings.Split(s, sep) for a one-character separator,
on the character list of the string: splitting the empty list yields one
empty segment, and each separator character starts a new segment. -/
def splitChars (sep : Char) : List Char → List (List Char)
  | [] => [[]]
  | c :: cs =>
    match splitChars sep cs with
    | [] => if c = sep then [[], []] else [[c]]
    | g :: gs => if c = sep then [] :: g :: gs else (c :: g) :: gs

/-- strings.Split(s, sl) where sl is the one-character slash separator. -/
def goSplitSlash (s : String) : List String :=
  (splitChars '/' s.data).map fun l => String.mk l

/-- strings.Join(v, sl) where sl is the one-character slash separator. -/
def goJoinSlash : List String → String
  | [] => ""
  | [x] => x
  | x :: y :: xs => x ++ "/" ++ goJoinSlash (y :: xs)

/-- The EfsTemplateURI format string of efs.go line 14, applied to the
availability zone, the first path segment and the region. -/
def EfsTemplateURI (az vol region : String) : String :=
  az ++ "." ++ vol ++ ".efs." ++ region ++ ".amazonaws.com"

/-- mountSuffix, from efs.go lines 137 to 139. -/
def mountSuffix (uri : String) : String := uri ++ ":/"

/-- Modelled from the spec: the mountpoint helper (not part of the
snapshot) is the deterministic join of the configured root directory and
the volume name. -/
def mountpoint (root name : String) : String := root ++ "/" ++ name

/-- fixSource, from efs.go lines 115 to 135: in resolving mode it builds
the template hostname from the first path segment, consults the DNS
cache, on a miss resolves the host (caching the first address on success
and falling back to the unresolved hostname on failure), and returns the
host followed by the mount suffix; in non-resolving mode it appends a
colon to the first path segment and rejoins the segments. It returns the
updated driver, since the Go method mutates the shared dnscache map. -/
def fixSource (dns : String → Option String) (e : EfsDriver) (name : String) :
    String × EfsDriver :=
  let v := goSplitSlash name
  if e.resolve then
    let uri := EfsTemplateURI e.availzone (v.headD "") e.region
    match e.dnscache uri with
    | some i => (mountSuffix i, e)
    | none =>
      match dns uri with
      | some addr =>
        (mountSuffix addr,
         { e with dnscache := fun q => if q = uri then some addr else e.dnscache q })
      | none => (mountSuffix uri, e)
  else
    match v with
    | [] => ("", e)
    | h :: t => (goJoinSlash ((h ++ ":") :: t), e)

/-- Mount, from efs.go lines 62 to 85: compute the destination and the
source, reuse the existing mount when the registry has a record with a
positive count (incrementing it, with no physical action), otherwise
create the destination directory and perform the physical mount with
protocol version 4, adding a registry record only when both succeed. -/
def Mount (env : Env) (e : EfsDriver) (name : String) :
    EfsDriver × Response × List Action :=
  let dest := mountpoint e.root name
  let fs := fixSource env.dns e name
  let source := fs.1
  let e1 := fs.2
  if HasMount e1.mountm dest ∧ Count e1.mountm dest > 0 then
    ({ e1 with mountm := Increment e1.mountm dest }, { Mountpoint := dest }, [])
  else
    match env.createDest dest with
    | some err => (e1, { Err := err }, [Action.createDest dest])
    | none =>
      match env.mountVolume source dest 4 with
      | some err =>
        (e1, { Err := err }, [Action.createDest dest, Action.mountVol source dest 4])
      | none =>
        ({ e1 with mountm := Add e1.mountm dest name }, { Mountpoint := dest },
         [Action.createDest dest, Action.mountVol source dest 4])

/-- Unmount, from efs.go lines 87 to 113: compute the destination and the
source, and when the registry has a record with count above 1 decrement
it and return success with no physical action; otherwise decrement when a
record exists, run the physical unmount command and then remove the
directory recursively, reporting the first failure. -/
def Unmount (env : Env) (e : EfsDriver) (name : String) :
    EfsDriver × Response × List Action :=
  let dest := mountpoint e.root name
  let fs := fixSource env.dns e name
  let e1 := fs.2
  if HasMount e1.mountm dest ∧ Count e1.mountm dest > 1 then
    ({ e1 with mountm := Decrement e1.mountm dest }, {}, [])
  else
    let e2 := if HasMount e1.mountm dest then
        { e1 with mountm := Decrement e1.mountm dest }
      else e1
    match env.umount dest with
    | some err => (e2, { Err := err }, [Action.unmountCmd dest])
    | none =>
      match env.removeAll dest with
      | some err => (e2, { Err := err }, [Action.unmountCmd dest, Action.removeAll dest])
      | none => (e2, {}, [Action.unmountCmd dest, Action.removeAll dest])

/-- The number of physical mount calls in an action trace. -/
def countPhysMount (l : List Action) : Nat :=
  l.countP fun a => match a with
    | Action.mountVol _ _ _ => true
    | _ => false

/-- The number of physical unmount calls in an action trace. -/
def countPhysUnmount (l : List Action) : Nat :=
  l.countP fun a => match a with
    | Action.unmountCmd _ => true
    | _ => false

/-- n successive Mount calls of the same volume name, with the traces
concatenated; under the driver mutex of efs.go the bodies of concurrent
calls execute serially, so any interleaving of n concurrent Mount calls
of one name is this sequential composition. -/
def iterMount (env : Env) (name : String) : Nat → EfsDriver → EfsDriver × List Action
  | 0, e => (e, [])
  | n + 1, e =>
    let r := Mount env e name
    let rest := iterMount env name n r.1
    (rest.1, r.2.2 ++ rest.2)

/-- n successive Unmount calls of the same volume name, with the traces
concatenated. -/
def iterUnmount (env : Env) (name : String) : Nat → EfsDriver → EfsDriver × List Action
  | 0, e => (e, [])
  | n + 1, e =>
    let r := Unmount env e name
    let rest := iterUnmount env name n r.1
    (rest.1, r.2.2 ++ rest.2)

/-- The hostname that fixSource builds in resolving mode: the template
applied to the availability zone, the first path segment of the volume
name, and the region. -/
def builtURI (e : EfsDriver) (name : String) : String :=
  EfsTemplateURI e.availzone ((goSplitSlash name).headD "") e.region

/-- A concrete resolver for instantiating theorems: it resolves exactly
the hostname az1.vol1.efs.us-east-1.amazonaws.com, to 10.0.0.5. -/
def dnsW : String → Option String :=
  fun u => if u = "az1.vol1.efs.us-east-1.amazonaws.com" then some "10.0.0.5" else none

/-- A concrete environment in which every physical operation succeeds. -/
def envW : Env :=
  { createDest := fun _ => none
    mountVolume := fun _ _ _ => none
    umount := fun _ => none
    removeAll := fun _ => none
    dns := dnsW }

/-- A concrete environment whose directory creation always fails. -/
def envFailCreate : Env :=
  { envW with createDest := fun _ => some "mkdir failed" }

/-- A concrete environment whose physical mount call always fails. -/
def envFailMount : Env :=
  { envW with mountVolume := fun _ _ _ => some "mount failed" }

/-- A concrete environment whose resolver always fails. -/
def envNoDns : Env :=
  { envW with dns := fun _ => none }

/-- A concrete driver in resolving mode with an empty registry and an
empty DNS cache. -/
def eResolve : EfsDriver :=
  { root := "/mnt"
    availzone := "az1"
    resolve := true
    region := "us-east-1"
    mountm := NewVolumeManager
    dnscache := fun _ => none }

/-- A concrete driver in non-resolving mode with an empty registry. -/
def eLiteral : EfsDriver := { eResolve with resolve := false }

/-- A concrete driver whose registry holds the mountpoint /mnt/vol with
reference count 2. -/
def eShared2 : EfsDriver :=
  { eLiteral with
    mountm := fun p => if p = "/mnt/vol" then some ⟨"vol", 2⟩ else none }

/-- A concrete driver whose registry holds the mountpoint /mnt/vol with
reference count 1. -/
def eShared1 : EfsDriver :=
  { eLiteral with
    mountm := fun p => if p = "/mnt/vol" then some ⟨"vol", 1⟩ else none }

theorem string_append_assoc (a b c : String) : a ++ b ++ c = a ++ (b ++ c) := by
  apply String.ext
  simp [String.data_append]

theorem splitChars_no_sep (sep : Char) (l : List Char) (h : sep ∉ l) :
    splitChars sep l = [l] := by
  induction l with
  | nil => rfl
  | cons c cs ih =>
    simp only [List.mem_cons, not_or] at h
    have hc : ¬c = sep := fun hcc => h.1 hcc.symm
    unfold splitChars
    rw [ih h.2]
    simp [hc]

theorem goSplitSlash_no_slash (name : String) (h : '/' ∉ name.data) :
    goSplitSlash name = [name] := by
  unfold goSplitSlash
  rw [splitChars_no_sep '/' name.data h]
  rfl

theorem fixSource_mountm (dns : String → Option String) (e : EfsDriver) (name : String) :
    (fixSource dns e name).2.mountm = e.mountm := by
  unfold fixSource
  simp only []
  repeat' split
  all_goals rfl

theorem fixSource_root (dns : String → Option String) (e : EfsDriver) (name : String) :
    (fixSource dns e name).2.root = e.root := by
  unfold fixSource
  simp only []
  repeat' split
  all_goals rfl

/-- C7: at construction, when the availability-zone override is empty the
driver's availability zone is the metadata default; but when the override
is non-empty the code leaves the availzone field at its zero value, the
empty string, instead of the supplied override (the az argument of
NewEFSDriver is consulted only for emptiness and is never assigned). -/
theorem newEFSDriver_availzone_config (root az : String) (rv : Bool) (md : AWSMetaData) :
    (az = "" → (NewEFSDriver root az rv md).availzone = md.AvailZone) ∧
    (az ≠ "" → (NewEFSDriver root az rv md).availzone = "") := by
  constructor <;> intro h <;> simp [NewEFSDriver, h]

/-- Witness for C7 at concrete inputs: empty override picks the metadata
zone us-east-1a, and the non-empty override az-override is dropped. -/
theorem newEFSDriver_availzone_config_witness :
    (NewEFSDriver "/mnt" "" true ⟨"us-east-1", "us-east-1a"⟩).availzone = "us-east-1a" ∧
    (NewEFSDriver "/mnt" "az-override" true ⟨"us-east-1", "us-east-1a"⟩).availzone = "" :=
  ⟨(newEFSDriver_availzone_config "/mnt" "" true ⟨"us-east-1", "us-east-1a"⟩).1 rfl,
   (newEFSDriver_availzone_config "/mnt" "az-override" true ⟨"us-east-1", "us-east-1a"⟩).2
     (by decide)⟩

/-- C4 counterexample: with availability zone az1, region us-east-1 and a
resolver that maps az1.vol1.efs.us-east-1.amazonaws.com to 10.0.0.5, the
source built for the name vol1/sub/path is 10.0.0.5:/ and not
10.0.0.5:/sub/path: the remaining path segments are discarded by the
resolving branch of fixSource. -/
theorem fixSource_resolving_drops_subpath :
    (fixSource dnsW eResolve "vol1/sub/path").1 = "10.0.0.5:/" ∧
    (fixSource dnsW eResolve "vol1/sub/path").1 ≠ "10.0.0.5:/sub/path" := by
  constructor <;> decide

/-- C4 (amended): in resolving mode with availability zone az1 and region
us-east-1, for a volume name whose first path segment is vol1, the built
hostname is az1.vol1.efs.us-east-1.amazonaws.com, and when resolution of
that hostname yields an address the resulting source string is that
address followed by the suffix :/ alone (the remaining path segments of
the volume name are not appended). -/
theorem fixSource_resolving_source (dns : String → Option String) (e : EfsDriver)
    (name addr : String) (hres : e.resolve = true)
    (hzone : e.availzone = "az1") (hreg : e.region = "us-east-1")
    (hhead : (goSplitSlash name).headD "" = "vol1")
    (hmiss : e.dnscache "az1.vol1.efs.us-east-1.amazonaws.com" = none)
    (hdns : dns "az1.vol1.efs.us-east-1.amazonaws.com" = some addr) :
    builtURI e name = "az1.vol1.efs.us-east-1.amazonaws.com" ∧
    (fixSource dns e name).1 = addr ++ ":/" := by
  have huri : EfsTemplateURI e.availzone ((goSplitSlash name).headD "") e.region
      = "az1.vol1.efs.us-east-1.amazonaws.com" := by
    rw [hzone, hreg, hhead]
    rfl
  refine ⟨huri, ?_⟩
  unfold fixSource
  simp only [hres, if_true, huri, hmiss, hdns]
  rfl

/-- Witness for C4 (amended) at the concrete name vol1/sub/path with
resolved address 10.0.0.5. -/
theorem fixSource_resolving_source_witness :
    (goSplitSlash "vol1/sub/path").headD "" = "vol1" ∧
    dnsW "az1.vol1.efs.us-east-1.amazonaws.com" = some "10.0.0.5" ∧
    builtURI eResolve "vol1/sub/path" = "az1.vol1.efs.us-east-1.amazonaws.com" ∧
    (fixSource dnsW eResolve "vol1/sub/path").1 = "10.0.0.5" ++ ":/" :=
  ⟨by decide, by decide,
   (fixSource_resolving_source dnsW eResolve "vol1/sub/path" "10.0.0.5" rfl rfl rfl
     (by decide) rfl (by decide)).1,
   (fixSource_resolving_source dnsW eResolve "vol1/sub/path" "10.0.0.5" rfl rfl rfl
     (by decide) rfl (by decide)).2⟩

/-- C5: in non-resolving mode the first path segment of the volume name
is taken literally, a colon is appended to it, and the segments are
rejoined, so a name with further segments yields first ++ :/ ++ rest; the
result does not depend on the resolver (no name resolution occurs) and
the driver state is unchanged. -/
theorem fixSource_nonresolving (dns dns2 : String → Option String) (e : EfsDriver)
    (name hd : String) (t : List String) (hres : e.resolve = false)
    (hsplit : goSplitSlash name = hd :: t) :
    (fixSource dns e name).1 = goJoinSlash ((hd ++ ":") :: t) ∧
    (∀ s ts, t = s :: ts → (fixSource dns e name).1 = hd ++ ":/" ++ goJoinSlash (s :: ts)) ∧
    fixSource dns e name = fixSource dns2 e name ∧
    (fixSource dns e name).2 = e := by
  have hfix : ∀ d : String → Option String,
      fixSource d e name = (goJoinSlash ((hd ++ ":") :: t), e) := by
    intro d
    unfold fixSource
    simp only [hres, Bool.false_eq_true, if_false, hsplit]
  refine ⟨by rw [hfix], ?_, by rw [hfix dns, hfix dns2], by rw [hfix]⟩
  intro s ts hts
  subst hts
  rw [hfix]
  have hcolon : (hd ++ ":") ++ "/" = hd ++ ":/" := by
    apply String.ext
    simp only [String.data_append, List.append_assoc]
    rfl
  have hjoin : goJoinSlash ((hd ++ ":") :: s :: ts)
      = (hd ++ ":") ++ "/" ++ goJoinSlash (s :: ts) := rfl
  rw [hjoin, hcolon]

/-- Witness for C5 at the concrete name server1/export: the source is
server1:/export. -/
theorem fixSource_nonresolving_witness :
    eLiteral.resolve = false ∧
    goSplitSlash "server1/export" = ["server1", "export"] ∧
    (fixSource dnsW eLiteral "server1/export").1 = "server1:/export" :=
  ⟨rfl, by decide,
   ((fixSource_nonresolving dnsW dnsW eLiteral "server1/export" "server1" ["export"]
     rfl (by decide)).2.1 "export" [] rfl).trans (by decide)⟩

/-- C10: in non-resolving mode, a volume name containing no slash yields
the name immediately followed by a colon, with nothing after it. -/
theorem fixSource_no_slash (dns : String → Option String) (e : EfsDriver) (name : String)
    (hres : e.resolve = false) (h : '/' ∉ name.data) :
    (fixSource dns e name).1 = name ++ ":" := by
  unfold fixSource
  simp only [hres, Bool.false_eq_true, if_false, goSplitSlash_no_slash name h]
  rfl

/-- Witness for C10 at the concrete name server1: the source is the
string server1 followed by a colon. -/
theorem fixSource_no_slash_witness :
    eLiteral.resolve = false ∧ '/' ∉ "server1".data ∧
    (fixSource dnsW eLiteral "server1").1 = "server1" ++ ":" :=
  ⟨rfl, by decide, fixSource_no_slash dnsW eLiteral "server1" rfl (by decide)⟩

theorem countPhysUnmount_pair (d1 d2 : String) :
    countPhysUnmount [Action.unmountCmd d1, Action.removeAll d2] = 1 := rfl

theorem countPhysUnmount_single (d : String) :
    countPhysUnmount [Action.unmountCmd d] = 1 := rfl

theorem countPhysMount_mountPair (d1 s d2 : String) (v : Nat) :
    countPhysMount [Action.createDest d1, Action.mountVol s d2 v] = 1 := rfl

theorem countPhysUnmount_mountPair (d1 s d2 : String) (v : Nat) :
    countPhysUnmount [Action.createDest d1, Action.mountVol s d2 v] = 0 := rfl

theorem countPhysMount_unmountPair (d1 d2 : String) :
    countPhysMount [Action.unmountCmd d1, Action.removeAll d2] = 0 := rfl

theorem countPhysMount_append (a b : List Action) :
    countPhysMount (a ++ b) = countPhysMount a + countPhysMount b :=
  List.countP_append _ _ _

theorem countPhysUnmount_append (a b : List Action) :
    countPhysUnmount (a ++ b) = countPhysUnmount a + countPhysUnmount b :=
  List.countP_append _ _ _

/-- C6: the DNS policy of fixSource in resolving mode: a cache hit
returns the cached address as the source host with no state change; on a
miss with successful resolution the returned address is cached and used;
on resolution failure the unresolved hostname itself becomes the source
host; and an enclosing Mount or Unmount whose physical steps succeed
returns no error even when every resolution fails. -/
theorem fixSource_dns_policy (env : Env) (e : EfsDriver) (name : String)
    (hres : e.resolve = true) :
    (∀ addr, e.dnscache (builtURI e name) = some addr →
       fixSource env.dns e name = (mountSuffix addr, e)) ∧
    (∀ addr, e.dnscache (builtURI e name) = none →
       env.dns (builtURI e name) = some addr →
       (fixSource env.dns e name).1 = mountSuffix addr ∧
       (fixSource env.dns e name).2.dnscache (builtURI e name) = some addr) ∧
    (e.dnscache (builtURI e name) = none → env.dns (builtURI e name) = none →
       fixSource env.dns e name = (mountSuffix (builtURI e name), e)) ∧
    (env.dns (builtURI e name) = none → (∀ p, env.createDest p = none) →
       (∀ s d v, env.mountVolume s d v = none) → (Mount env e name).2.1.Err = "") ∧
    (env.dns (builtURI e name) = none → (∀ p, env.umount p = none) →
       (∀ p, env.removeAll p = none) → (Unmount env e name).2.1.Err = "") := by
  have hb : EfsTemplateURI e.availzone ((goSplitSlash name).headD "") e.region
      = builtURI e name := rfl
  refine ⟨?_, ?_, ?_, ?_, ?_⟩
  · intro addr hhit
    unfold fixSource
    simp only [hres, if_true, hb, hhit]
  · intro addr hmiss hdns
    unfold fixSource
    simp only [hres, if_true, hb, hmiss, hdns]
    simp
  · intro hmiss hdns
    unfold fixSource
    simp only [hres, if_true, hb, hmiss, hdns]
  · intro _ hc hm
    unfold Mount
    simp only [hc, hm]
    split <;> rfl
  · intro _ hu hr
    unfold Unmount
    simp only [hu, hr]
    split <;> rfl

/-- Witness for C6: with a failing resolver the fallback source is the
unresolved hostname and Mount still succeeds; with a succeeding resolver
the resolved address 10.0.0.5 is used. -/
theorem fixSource_dns_policy_witness :
    eResolve.resolve = true ∧
    eResolve.dnscache (builtURI eResolve "vol1/sub/path") = none ∧
    envNoDns.dns (builtURI eResolve "vol1/sub/path") = none ∧
    fixSource envNoDns.dns eResolve "vol1/sub/path"
      = (mountSuffix (builtURI eResolve "vol1/sub/path"), eResolve) ∧
    (Mount envNoDns eResolve "vol1/sub/path").2.1.Err = "" ∧
    (Unmount envNoDns eResolve "vol1/sub/path").2.1.Err = "" ∧
    envW.dns (builtURI eResolve "vol1/sub/path") = some "10.0.0.5" ∧
    (fixSource envW.dns eResolve "vol1/sub/path").1 = mountSuffix "10.0.0.5" :=
  ⟨rfl, rfl, rfl,
   (fixSource_dns_policy envNoDns eResolve "vol1/sub/path" rfl).2.2.1 rfl rfl,
   (fixSource_dns_policy envNoDns eResolve "vol1/sub/path" rfl).2.2.2.1 rfl
     (fun _ => rfl) (fun _ _ _ => rfl),
   (fixSource_dns_policy envNoDns eResolve "vol1/sub/path" rfl).2.2.2.2 rfl
     (fun _ => rfl) (fun _ => rfl),
   by decide,
   ((fixSource_dns_policy envW eResolve "vol1/sub/path" rfl).2.1 "10.0.0.5" rfl
     (by decide)).1⟩

/-- C9: an Unmount whose computed mountpoint has no registry record still
attempts the physical unmount of that mountpoint; when the unmount
command succeeds the mountpoint directory is removed recursively, and a
failure of either step becomes the response error. -/
theorem unmount_no_record (env : Env) (e : EfsDriver) (name : String)
    (h : e.mountm (mountpoint e.root name) = none) :
    Action.unmountCmd (mountpoint e.root name) ∈ (Unmount env e name).2.2 ∧
    (Unmount env e name).2 =
      (match env.umount (mountpoint e.root name),
             env.removeAll (mountpoint e.root name) with
       | some err, _ => ({ Err := err }, [Action.unmountCmd (mountpoint e.root name)])
       | none, some err =>
         ({ Err := err }, [Action.unmountCmd (mountpoint e.root name),
                           Action.removeAll (mountpoint e.root name)])
       | none, none =>
         ({}, [Action.unmountCmd (mountpoint e.root name),
               Action.removeAll (mountpoint e.root name)])) := by
  have hcond : HasMount (fixSource env.dns e name).2.mountm (mountpoint e.root name)
      = false := by
    rw [fixSource_mountm]
    unfold HasMount
    rw [h]
    rfl
  unfold Unmount
  simp only [hcond, Bool.false_eq_true, false_and, if_false]
  cases hu : env.umount (mountpoint e.root name) with
  | some err => simp [hu]
  | none =>
    cases hr : env.removeAll (mountpoint e.root name) with
    | some err => simp [hu, hr]
    | none => simp [hu, hr]

/-- Witness for C9: a driver with an empty registry, in an environment
where both physical steps succeed: the physical unmount and the
directory removal are both attempted and the response is empty. -/
theorem unmount_no_record_witness :
    eLiteral.mountm (mountpoint eLiteral.root "vol") = none ∧
    Action.unmountCmd (mountpoint eLiteral.root "vol") ∈ (Unmount envW eLiteral "vol").2.2 ∧
    (Unmount envW eLiteral "vol").2 =
      (({} : Response), [Action.unmountCmd (mountpoint eLiteral.root "vol"),
                         Action.removeAll (mountpoint eLiteral.root "vol")]) :=
  ⟨by decide, (unmount_no_record envW eLiteral "vol" rfl).1,
   (unmount_no_record envW eLiteral "vol" rfl).2⟩

/-- C1: when the mountpoint has a registry record with count above 1,
Unmount decrements the count by one and returns success with no physical
action at all; and when the record's count is 1, Unmount performs
exactly one physical unmount call, of that mountpoint. -/
theorem unmount_shared_then_last (env : Env) (e : EfsDriver) (name : String)
    (r : MountRecord) (h : e.mountm (mountpoint e.root name) = some r) :
    (1 < r.refCount →
       (Unmount env e name).1.mountm (mountpoint e.root name)
           = some ⟨r.volumeName, r.refCount - 1⟩ ∧
       (Unmount env e name).2.1 = ({} : Response) ∧
       (Unmount env e name).2.2 = []) ∧
    (r.refCount = 1 →
       countPhysUnmount (Unmount env e name).2.2 = 1 ∧
       Action.unmountCmd (mountpoint e.root name) ∈ (Unmount env e name).2.2) := by
  constructor
  · intro h1
    have hp : (HasMount (fixSource env.dns e name).2.mountm (mountpoint e.root name)
        = true) ∧ Count (fixSource env.dns e name).2.mountm (mountpoint e.root name) > 1 := by
      rw [fixSource_mountm]
      constructor
      · unfold HasMount
        rw [h]
        rfl
      · unfold Count
        rw [h]
        exact h1
    unfold Unmount
    rw [if_pos hp]
    refine ⟨?_, rfl, rfl⟩
    show Decrement (fixSource env.dns e name).2.mountm (mountpoint e.root name)
        (mountpoint e.root name) = some ⟨r.volumeName, r.refCount - 1⟩
    unfold Decrement
    simp [fixSource_mountm, h]
  · intro h1
    have hneg : ¬((HasMount (fixSource env.dns e name).2.mountm (mountpoint e.root name)
        = true) ∧ Count (fixSource env.dns e name).2.mountm (mountpoint e.root name) > 1) := by
      rw [fixSource_mountm]
      intro hand
      have h2 := hand.2
      unfold Count at h2
      rw [h] at h2
      have h3 : r.refCount > 1 := h2
      omega
    unfold Unmount
    rw [if_neg hneg]
    cases hu : env.umount (mountpoint e.root name) with
    | some err => simp [hu, countPhysUnmount_single]
    | none =>
      cases hr : env.removeAll (mountpoint e.root name) with
      | some err => simp [hu, hr, countPhysUnmount_pair]
      | none => simp [hu, hr, countPhysUnmount_pair]

/-- Witness for C1: unmounting /mnt/vol at reference count 2 decrements
to 1 with no physical action; unmounting at count 1 performs exactly one
physical unmount of /mnt/vol. -/
theorem unmount_shared_then_last_witness :
    eShared2.mountm (mountpoint eShared2.root "vol") = some ⟨"vol", 2⟩ ∧
    ((Unmount envW eShared2 "vol").1.mountm (mountpoint eShared2.root "vol")
        = some ⟨"vol", 1⟩ ∧
     (Unmount envW eShared2 "vol").2.1 = ({} : Response) ∧
     (Unmount envW eShared2 "vol").2.2 = []) ∧
    eShared1.mountm (mountpoint eShared1.root "vol") = some ⟨"vol", 1⟩ ∧
    countPhysUnmount (Unmount envW eShared1 "vol").2.2 = 1 ∧
    Action.unmountCmd (mountpoint eShared1.root "vol") ∈ (Unmount envW eShared1 "vol").2.2 :=
  ⟨by decide,
   (unmount_shared_then_last envW eShared2 "vol" ⟨"vol", 2⟩ (by decide)).1 (by decide),
   by decide,
   ((unmount_shared_then_last envW eShared1 "vol" ⟨"vol", 1⟩ (by decide)).2 rfl).1,
   ((unmount_shared_then_last envW eShared1 "vol" ⟨"vol", 1⟩ (by decide)).2 rfl).2⟩

/-- C2: a Mount whose computed mountpoint has a registry record with
positive count increments the count, returns the mountpoint computed
deterministically from the root and the name (hence the same mountpoint
the first mount returned), and attempts no physical action at all. -/
theorem mount_reuse (env : Env) (e : EfsDriver) (name : String) (r : MountRecord)
    (h : e.mountm (mountpoint e.root name) = some r) (hc : 0 < r.refCount) :
    (Mount env e name).2.1 = { Mountpoint := mountpoint e.root name } ∧
    (Mount env e name).1.mountm (mountpoint e.root name)
        = some ⟨r.volumeName, r.refCount + 1⟩ ∧
    (Mount env e name).2.2 = [] := by
  have hp : (HasMount (fixSource env.dns e name).2.mountm (mountpoint e.root name)
      = true) ∧ Count (fixSource env.dns e name).2.mountm (mountpoint e.root name) > 0 := by
    rw [fixSource_mountm]
    constructor
    · unfold HasMount
      rw [h]
      rfl
    · unfold Count
      rw [h]
      exact hc
  unfold Mount
  rw [if_pos hp]
  refine ⟨rfl, ?_, rfl⟩
  show Increment (fixSource env.dns e name).2.mountm (mountpoint e.root name)
      (mountpoint e.root name) = some ⟨r.volumeName, r.refCount + 1⟩
  unfold Increment
  simp [fixSource_mountm, h]

/-- Witness for C2: a second Mount of /mnt/vol at reference count 1
returns /mnt/vol, raises the count to 2, and attempts nothing
physical. -/
theorem mount_reuse_witness :
    eShared1.mountm (mountpoint eShared1.root "vol") = some ⟨"vol", 1⟩ ∧
    (0 : Nat) < 1 ∧
    (Mount envW eShared1 "vol").2.1 = { Mountpoint := mountpoint eShared1.root "vol" } ∧
    (Mount envW eShared1 "vol").1.mountm (mountpoint eShared1.root "vol")
        = some ⟨"vol", 2⟩ ∧
    (Mount envW eShared1 "vol").2.2 = [] :=
  ⟨by decide, by decide,
   (mount_reuse envW eShared1 "vol" ⟨"vol", 1⟩ (by decide) (by decide)).1,
   (mount_reuse envW eShared1 "vol" ⟨"vol", 1⟩ (by decide) (by decide)).2.1,
   (mount_reuse envW eShared1 "vol" ⟨"vol", 1⟩ (by decide) (by decide)).2.2⟩

/-- C3: when Mount is not a reuse and directory creation or the physical
mount call fails, the registry function is completely unchanged (so a
retried Mount is treated as fresh, not as reuse) and the response error
is the underlying error string. -/
theorem mount_failure_no_mutation (env : Env) (e : EfsDriver) (name err : String)
    (hno : ¬((HasMount e.mountm (mountpoint e.root name) = true) ∧
             Count e.mountm (mountpoint e.root name) > 0))
    (hfail : env.createDest (mountpoint e.root name) = some err ∨
      (env.createDest (mountpoint e.root name) = none ∧
       env.mountVolume (fixSource env.dns e name).1 (mountpoint e.root name) 4 = some err)) :
    (Mount env e name).1.mountm = e.mountm ∧ (Mount env e name).2.1.Err = err := by
  have hno2 : ¬((HasMount (fixSource env.dns e name).2.mountm (mountpoint e.root name)
      = true) ∧ Count (fixSource env.dns e name).2.mountm (mountpoint e.root name) > 0) := by
    rw [fixSource_mountm]
    exact hno
  unfold Mount
  rw [if_neg hno2]
  rcases hfail with hcd | ⟨hcd, hmv⟩
  · simp only [hcd]
    exact ⟨fixSource_mountm env.dns e name, trivial⟩
  · simp only [hcd, hmv]
    exact ⟨fixSource_mountm env.dns e name, trivial⟩

/-- Witness for C3: with an empty registry, a failing directory creation
and a failing physical mount each leave the registry untouched and
surface their error string. -/
theorem mount_failure_no_mutation_witness :
    envFailCreate.createDest (mountpoint eLiteral.root "vol") = some "mkdir failed" ∧
    (Mount envFailCreate eLiteral "vol").1.mountm = eLiteral.mountm ∧
    (Mount envFailCreate eLiteral "vol").2.1.Err = "mkdir failed" ∧
    envFailMount.mountVolume (fixSource envFailMount.dns eLiteral "vol").1
      (mountpoint eLiteral.root "vol") 4 = some "mount failed" ∧
    (Mount envFailMount eLiteral "vol").1.mountm = eLiteral.mountm ∧
    (Mount envFailMount eLiteral "vol").2.1.Err = "mount failed" :=
  ⟨rfl,
   (mount_failure_no_mutation envFailCreate eLiteral "vol" "mkdir failed"
     (by decide) (Or.inl rfl)).1,
   (mount_failure_no_mutation envFailCreate eLiteral "vol" "mkdir failed"
     (by decide) (Or.inl rfl)).2,
   rfl,
   (mount_failure_no_mutation envFailMount eLiteral "vol" "mount failed"
     (by decide) (Or.inr ⟨rfl, rfl⟩)).1,
   (mount_failure_no_mutation envFailMount eLiteral "vol" "mount failed"
     (by decide) (Or.inr ⟨rfl, rfl⟩)).2⟩

theorem mount_root (env : Env) (e : EfsDriver) (name : String) :
    (Mount env e name).1.root = e.root := by
  unfold Mount
  simp only []
  repeat' split
  all_goals exact fixSource_root env.dns e name

theorem mount_reuse_aux (env : Env) (e : EfsDriver) (name : String) (r : MountRecord)
    (h : e.mountm (mountpoint e.root name) = some r) (hc : 0 < r.refCount) :
    (Mount env e name).1.mountm (mountpoint e.root name)
        = some ⟨r.volumeName, r.refCount + 1⟩ ∧
    (Mount env e name).1.root = e.root ∧
    (Mount env e name).2.2 = [] := by
  have hp : (HasMount (fixSource env.dns e name).2.mountm (mountpoint e.root name)
      = true) ∧ Count (fixSource env.dns e name).2.mountm (mountpoint e.root name) > 0 := by
    rw [fixSource_mountm]
    constructor
    · unfold HasMount
      rw [h]
      rfl
    · unfold Count
      rw [h]
      exact hc
  refine ⟨?_, mount_root env e name, ?_⟩
  · unfold Mount
    rw [if_pos hp]
    show Increment (fixSource env.dns e name).2.mountm (mountpoint e.root name)
        (mountpoint e.root name) = some ⟨r.volumeName, r.refCount + 1⟩
    unfold Increment
    simp [fixSource_mountm, h]
  · unfold Mount
    rw [if_pos hp]

theorem mount_fresh_aux (env : Env) (e : EfsDriver) (name : String)
    (hfresh : e.mountm (mountpoint e.root name) = none)
    (hc : ∀ p, env.createDest p = none) (hm : ∀ s d v, env.mountVolume s d v = none) :
    (Mount env e name).1.mountm (mountpoint e.root name) = some ⟨name, 1⟩ ∧
    (Mount env e name).1.root = e.root ∧
    (Mount env e name).2.2
      = [Action.createDest (mountpoint e.root name),
         Action.mountVol (fixSource env.dns e name).1 (mountpoint e.root name) 4] := by
  have hno : ¬((HasMount (fixSource env.dns e name).2.mountm (mountpoint e.root name)
      = true) ∧ Count (fixSource env.dns e name).2.mountm (mountpoint e.root name) > 0) := by
    rw [fixSource_mountm]
    intro hand
    have h1 := hand.1
    unfold HasMount at h1
    rw [hfresh] at h1
    exact absurd h1 (by decide)
  refine ⟨?_, mount_root env e name, ?_⟩
  · unfold Mount
    rw [if_neg hno]
    simp only [hc, hm]
    show Add (fixSource env.dns e name).2.mountm (mountpoint e.root name) name
        (mountpoint e.root name) = some ⟨name, 1⟩
    unfold Add
    simp
  · unfold Mount
    rw [if_neg hno]
    simp only [hc, hm]

theorem unmount_root (env : Env) (e : EfsDriver) (name : String) :
    (Unmount env e name).1.root = e.root := by
  unfold Unmount
  simp only []
  repeat' split
  all_goals exact fixSource_root env.dns e name

theorem unmount_dec_aux (env : Env) (e : EfsDriver) (name : String) (r : MountRecord)
    (h : e.mountm (mountpoint e.root name) = some r) (hgt : 1 < r.refCount) :
    (Unmount env e name).1.mountm (mountpoint e.root name)
        = some ⟨r.volumeName, r.refCount - 1⟩ ∧
    (Unmount env e name).1.root = e.root ∧
    (Unmount env e name).2.2 = [] := by
  have hp : (HasMount (fixSource env.dns e name).2.mountm (mountpoint e.root name)
      = true) ∧ Count (fixSource env.dns e name).2.mountm (mountpoint e.root name) > 1 := by
    rw [fixSource_mountm]
    constructor
    · unfold HasMount
      rw [h]
      rfl
    · unfold Count
      rw [h]
      exact hgt
  refine ⟨?_, unmount_root env e name, ?_⟩
  · unfold Unmount
    rw [if_pos hp]
    show Decrement (fixSource env.dns e name).2.mountm (mountpoint e.root name)
        (mountpoint e.root name) = some ⟨r.volumeName, r.refCount - 1⟩
    unfold Decrement
    simp [fixSource_mountm, h]
  · unfold Unmount
    rw [if_pos hp]

theorem unmount_last_aux (env : Env) (e : EfsDriver) (name : String) (r : MountRecord)
    (h : e.mountm (mountpoint e.root name) = some r) (h1 : r.refCount = 1)
    (hu : ∀ p, env.umount p = none) (hr : ∀ p, env.removeAll p = none) :
    (Unmount env e name).1.mountm (mountpoint e.root name) = some ⟨r.volumeName, 0⟩ ∧
    (Unmount env e name).1.root = e.root ∧
    (Unmount env e name).2.2
      = [Action.unmountCmd (mountpoint e.root name),
         Action.removeAll (mountpoint e.root name)] := by
  have hneg : ¬((HasMount (fixSource env.dns e name).2.mountm (mountpoint e.root name)
      = true) ∧ Count (fixSource env.dns e name).2.mountm (mountpoint e.root name) > 1) := by
    rw [fixSource_mountm]
    intro hand
    have h2 := hand.2
    unfold Count at h2
    rw [h] at h2
    have h3 : r.refCount > 1 := h2
    omega
  have hhas : HasMount (fixSource env.dns e name).2.mountm (mountpoint e.root name)
      = true := by
    rw [fixSource_mountm]
    unfold HasMount
    rw [h]
    rfl
  refine ⟨?_, unmount_root env e name, ?_⟩
  · unfold Unmount
    rw [if_neg hneg]
    simp only [hhas, if_true, hu, hr]
    show Decrement (fixSource env.dns e name).2.mountm (mountpoint e.root name)
        (mountpoint e.root name) = some ⟨r.volumeName, 0⟩
    unfold Decrement
    simp [fixSource_mountm, h, h1]
  · unfold Unmount
    rw [if_neg hneg]
    simp only [hu, hr]

theorem iterMount_reuse (env : Env) (name : String) (k : Nat) :
    ∀ (e : EfsDriver) (v : String) (c : Nat), 0 < c →
    e.mountm (mountpoint e.root name) = some ⟨v, c⟩ →
    (iterMount env name k e).1.mountm (mountpoint e.root name) = some ⟨v, c + k⟩ ∧
    (iterMount env name k e).1.root = e.root ∧
    (iterMount env name k e).2 = [] := by
  induction k with
  | zero =>
    intro e v c _ h
    exact ⟨h, rfl, rfl⟩
  | succ k ih =>
    intro e v c hcpos h
    obtain ⟨h1, h2, h3⟩ := mount_reuse_aux env e name ⟨v, c⟩ h hcpos
    have h1' : (Mount env e name).1.mountm (mountpoint (Mount env e name).1.root name)
        = some ⟨v, c + 1⟩ := by
      rw [h2]
      exact h1
    obtain ⟨g1, g2, g3⟩ := ih (Mount env e name).1 v (c + 1) (by omega) h1'
    rw [h2] at g1 g2
    refine ⟨?_, ?_, ?_⟩
    · show (iterMount env name k (Mount env e name).1).1.mountm (mountpoint e.root name)
          = some ⟨v, c + (k + 1)⟩
      rw [g1]
      congr 2
      omega
    · show (iterMount env name k (Mount env e name).1).1.root = e.root
      exact g2
    · show (Mount env e name).2.2 ++ (iterMount env name k (Mount env e name).1).2 = []
      rw [h3, g3]
      rfl

theorem iterUnmount_drain (env : Env) (name : String)
    (hu : ∀ p, env.umount p = none) (hr : ∀ p, env.removeAll p = none) :
    ∀ (m : Nat) (e : EfsDriver) (v : String), 1 ≤ m →
    e.mountm (mountpoint e.root name) = some ⟨v, m⟩ →
    (iterUnmount env name m e).1.mountm (mountpoint e.root name) = some ⟨v, 0⟩ ∧
    (iterUnmount env name m e).2
      = [Action.unmountCmd (mountpoint e.root name),
         Action.removeAll (mountpoint e.root name)] := by
  intro m
  induction m with
  | zero =>
    intro e v h0
    omega
  | succ k ih =>
    intro e v _ h
    cases k with
    | zero =>
      obtain ⟨h1, h2, h3⟩ := unmount_last_aux env e name ⟨v, 1⟩ h rfl hu hr
      refine ⟨?_, ?_⟩
      · show (iterUnmount env name 0 (Unmount env e name).1).1.mountm
            (mountpoint e.root name) = some ⟨v, 0⟩
        exact h1
      · show (Unmount env e name).2.2
            ++ (iterUnmount env name 0 (Unmount env e name).1).2
            = [Action.unmountCmd (mountpoint e.root name),
               Action.removeAll (mountpoint e.root name)]
        rw [h3]
        rfl
    | succ j =>
      obtain ⟨h1, h2, h3⟩ := unmount_dec_aux env e name ⟨v, j + 2⟩ h
        (Nat.succ_lt_succ (Nat.succ_pos j))
      have h1' : (Unmount env e name).1.mountm
          (mountpoint (Unmount env e name).1.root name) = some ⟨v, j + 1⟩ := by
        rw [h2]
        exact h1
      obtain ⟨g1, g2⟩ := ih (Unmount env e name).1 v (by omega) h1'
      rw [h2] at g1 g2
      refine ⟨?_, ?_⟩
      · show (iterUnmount env name (j + 1) (Unmount env e name).1).1.mountm
            (mountpoint e.root name) = some ⟨v, 0⟩
        exact g1
      · show (Unmount env e name).2.2
            ++ (iterUnmount env name (j + 1) (Unmount env e name).1).2
            = [Action.unmountCmd (mountpoint e.root name),
               Action.removeAll (mountpoint e.root name)]
        rw [h3, g2]
        rfl

/-- C8: the driver mutex serializes the whole body of every Mount and
Unmount, so any interleaving of N concurrent Mount calls of one volume
name followed by N Unmount calls executes as the sequential composition
iterMount then iterUnmount; starting from a registry with no record for
the mountpoint, with all physical operations succeeding, the combined
trace holds exactly one physical mount and exactly one physical unmount,
and the final registry record for that mountpoint has reference count
zero. -/
theorem mount_unmount_balance (env : Env) (e : EfsDriver) (name : String) (N : Nat)
    (hN : 1 ≤ N)
    (hfresh : e.mountm (mountpoint e.root name) = none)
    (hc : ∀ p, env.createDest p = none)
    (hm : ∀ s d v, env.mountVolume s d v = none)
    (hu : ∀ p, env.umount p = none)
    (hr : ∀ p, env.removeAll p = none) :
    countPhysMount ((iterMount env name N e).2
        ++ (iterUnmount env name N (iterMount env name N e).1).2) = 1 ∧
    countPhysUnmount ((iterMount env name N e).2
        ++ (iterUnmount env name N (iterMount env name N e).1).2) = 1 ∧
    ((iterUnmount env name N (iterMount env name N e).1).1.mountm
        (mountpoint e.root name) = none ∨
     Count (iterUnmount env name N (iterMount env name N e).1).1.mountm
        (mountpoint e.root name) = 0) := by
  obtain ⟨K, rfl⟩ : ∃ K, N = K + 1 := ⟨N - 1, by omega⟩
  obtain ⟨f1, f2, f3⟩ := mount_fresh_aux env e name hfresh hc hm
  have f1' : (Mount env e name).1.mountm (mountpoint (Mount env e name).1.root name)
      = some ⟨name, 1⟩ := by
    rw [f2]
    exact f1
  obtain ⟨g1, g2, g3⟩ := iterMount_reuse env name K (Mount env e name).1 name 1
    (by omega) f1'
  rw [f2] at g1 g2
  have hMState : (iterMount env name (K + 1) e).1.mountm (mountpoint e.root name)
      = some ⟨name, K + 1⟩ := by
    show (iterMount env name K (Mount env e name).1).1.mountm (mountpoint e.root name)
        = some ⟨name, K + 1⟩
    rw [g1]
    congr 2
    omega
  have hMRoot : (iterMount env name (K + 1) e).1.root = e.root := by
    show (iterMount env name K (Mount env e name).1).1.root = e.root
    exact g2
  have hMTrace : (iterMount env name (K + 1) e).2
      = [Action.createDest (mountpoint e.root name),
         Action.mountVol (fixSource env.dns e name).1 (mountpoint e.root name) 4] := by
    show (Mount env e name).2.2 ++ (iterMount env name K (Mount env e name).1).2
        = [Action.createDest (mountpoint e.root name),
           Action.mountVol (fixSource env.dns e name).1 (mountpoint e.root name) 4]
    rw [f3, g3]
    rfl
  have hState' : (iterMount env name (K + 1) e).1.mountm
      (mountpoint (iterMount env name (K + 1) e).1.root name) = some ⟨name, K + 1⟩ := by
    rw [hMRoot]
    exact hMState
  obtain ⟨d1, d2⟩ := iterUnmount_drain env name hu hr (K + 1)
    (iterMount env name (K + 1) e).1 name (by omega) hState'
  rw [hMRoot] at d1 d2
  refine ⟨?_, ?_, Or.inr ?_⟩
  · rw [countPhysMount_append, hMTrace, d2, countPhysMount_mountPair,
      countPhysMount_unmountPair]
  · rw [countPhysUnmount_append, hMTrace, d2, countPhysUnmount_mountPair,
      countPhysUnmount_pair]
  · unfold Count
    rw [d1]

/-- Witness for C8 at N = 3 on a fresh driver: the whole run attempts one
physical mount and one physical unmount and ends with a zero-count
record. -/
theorem mount_unmount_balance_witness :
    eLiteral.mountm (mountpoint eLiteral.root "vol") = none ∧
    countPhysMount ((iterMount envW "vol" 3 eLiteral).2
        ++ (iterUnmount envW "vol" 3 (iterMount envW "vol" 3 eLiteral).1).2) = 1 ∧
    countPhysUnmount ((iterMount envW "vol" 3 eLiteral).2
        ++ (iterUnmount envW "vol" 3 (iterMount envW "vol" 3 eLiteral).1).2) = 1 ∧
    ((iterUnmount envW "vol" 3 (iterMount envW "vol" 3 eLiteral).1).1.mountm
        (mountpoint eLiteral.root "vol") = none ∨
     Count (iterUnmount envW "vol" 3 (iterMount envW "vol" 3 eLiteral).1).1.mountm
        (mountpoint eLiteral.root "vol") = 0) :=
  ⟨by decide,
   (mount_unmount_balance envW eLiteral "vol" 3 (by decide) (by decide)
     (fun _ => rfl) (fun _ _ _ => rfl) (fun _ => rfl) (fun _ => rfl)).1,
   (mount_unmount_balance envW eLiteral "vol" 3 (by decide) (by decide)
     (fun _ => rfl) (fun _ _ _ => rfl) (fun _ => rfl) (fun _ => rfl)).2.1,
   (mount_unmount_balance envW eLiteral "vol" 3 (by decide) (by decide)
     (fun _ => rfl) (fun _ _ _ => rfl) (fun _ => rfl) (fun _ => rfl)).2.2⟩

end Netshare
